import Mathlib

/-!
Shallow embedding of the Core IR and driver-configuration surface of the
sml-compiler repository (crates `sml-core` and `sml-driver`), together with
proofs about the value-restriction predicate `Expr.non_expansive`, the
`Row` functor helpers, and the command-line argument parser `ArgParse`.

Rust `Vec<T>` is rendered as `List T`, arena references `&'ar T` as plain
values, `Option`/`Result` as `Option`/`Except`, and `panic!` sites as
`Except.error` outcomes.  Machine integers (`u8`, `u16`, `u32`) only ever
hold small literal values in the embedded code, so they are rendered as
`Nat`; no arithmetic is performed on them anywhere in the embedded
fragment, hence overflow cannot arise.
-/

namespace SML

/-- Modelled from the spec: `Symbol` is an opaque interned identifier
(crate `sml-util`, not shown in the sources); equality is id equality. -/
structure Symbol where
  id : Nat
deriving DecidableEq, Repr

/-- Modelled from the spec: `Span` is a `(file_id, lo, hi)` source range
(crate `sml-util`, not shown in the sources). -/
structure Span where
  file_id : Nat
  lo : Nat
  hi : Nat
deriving DecidableEq, Repr

/-- Modelled from the spec: surface-AST literal constants
(`sml_frontend::ast::Const`, not shown in the sources): int, char,
string and unit literals. -/
inductive Const where
  | Int (n : Int)
  | Char (c : Char)
  | String (s : String)
  | Unit
deriving DecidableEq, Repr

/-- Modelled from the spec: `Tycon` (module `types`, not shown in the
sources) with `name: Symbol`, `arity: u8`, `scope_depth`, `id`; equality
is by-field structural equality, built-ins have fixed ids. -/
structure Tycon where
  name : Symbol
  arity : Nat
  scope_depth : Nat
  id : Nat
deriving DecidableEq, Repr

/-- Modelled from the spec: `Constructor` (module `types`, not shown in
the sources) with `name: Symbol`, `tycon: Tycon`, `tag: u16`,
`arity ∈ {0,1}`. -/
structure Constructor where
  name : Symbol
  tycon : Tycon
  tag : Nat
  arity : Nat
deriving DecidableEq, Repr

/-- Modelled from the spec: the immutable skeleton of `Type` (module
`types`, not shown in the sources): variable, constructor application,
closed record, open (flex) record.  Type-variable link cells are
elaboration-time state; the IR nodes the claims concern carry types as
inert payloads, so variables and flex tails are rendered by their ids. -/
inductive SmlType where
  | Var (id : Nat)
  | Con (tc : Tycon) (args : List SmlType)
  | RecordTy (labels : List Symbol)
  | Flex (labels : List Symbol) (tail : Nat)

/-- Modelled from the spec: the built-in `ref` tycon (arity 1, fixed id);
the concrete id and symbol numbers are the fixed-table positions from
spec section 4.2 (int, real, string, char, bool, unit, list, ref, ...). -/
def T_REF : Tycon := { name := { id := 7 }, arity := 1, scope_depth := 0, id := 7 }

/-- Modelled from the spec: `builtin::constructors::C_REF`, the `ref`
value constructor of the `ref` tycon (module `builtin`, not shown in the
sources); it is a fixed constant compared structurally in
`Expr::non_expansive`. -/
def C_REF : Constructor := { name := { id := 7 }, tycon := T_REF, tag := 0, arity := 1 }

/-- Embedding of `Row<T>` from `sml-core/src/lib.rs`: a labelled, spanned payload. -/
structure Row (T : Type) where
  label : Symbol
  data : T
  span : Span
deriving DecidableEq, Repr

/-- Embedding of `Row::fmap` from `sml-core/src/lib.rs`: rebuild the row with the same
`label` and `span` and `f` applied to `data`. -/
def Row.fmap {T S : Type} (r : Row T) (f : T → S) : Row S :=
  { label := r.label
    span := r.span
    data := f r.data }

/-- Embedding of `Row::flatten` from `sml-core/src/lib.rs`: `self.data?` propagates an
`Err`; otherwise the row is rebuilt around the unwrapped data. -/
def Row.flatten {T E : Type} (r : Row (Except E T)) : Except E (Row T) :=
  match r.data with
  | .error e => .error e
  | .ok d => .ok { label := r.label, span := r.span, data := d }

/-- Embedding of `Datatype` from `sml-core/src/lib.rs`. -/
structure Datatype where
  tycon : Tycon
  tyvars : List Nat
  constructors : List (Constructor × Option SmlType)

mutual

/-- Embedding of `ExprKind<'ar>` from `sml-core/src/lib.rs`: the thirteen Core IR
expression kinds.  All subterms are Core `Expr`/`Pat` nodes. -/
inductive ExprKind where
  | App (e1 : Expr) (e2 : Expr)
  | Case (scrut : Expr) (rules : List Rule)
  | Con (con : Constructor) (tys : List SmlType)
  | Const (c : Const)
  | Handle (e : Expr) (rules : List Rule)
  | Lambda (l : Lambda)
  | Let (decls : List Decl) (body : Expr)
  | List (exprs : List Expr)
  | Primitive (sym : Symbol)
  | Raise (e : Expr)
  | Record (rows : List (Row Expr))
  | Seq (exprs : List Expr)
  | Var (sym : Symbol)

/-- Embedding of `Expr<'ar>` from `sml-core/src/lib.rs`: a kind, a type and a span. -/
inductive Expr where
  | mk (expr : ExprKind) (ty : SmlType) (span : Span)

/-- Embedding of `Lambda<'ar>` from `sml-core/src/lib.rs`. -/
inductive Lambda where
  | mk (arg : Symbol) (ty : SmlType) (body : Expr)

/-- Embedding of `PatKind<'ar>` from `sml-core/src/lib.rs`. -/
inductive PatKind where
  | App (con : Constructor) (arg : Option Pat)
  | Const (c : Const)
  | List (pats : List Pat)
  | Record (rows : List (Row Pat))
  | Var (sym : Symbol)
  | Wild

/-- Embedding of `Pat<'ar>` from `sml-core/src/lib.rs`. -/
inductive Pat where
  | mk (pat : PatKind) (ty : SmlType) (span : Span)

/-- Embedding of `Rule<'ar>` from `sml-core/src/lib.rs`. -/
inductive Rule where
  | mk (pat : Pat) (expr : Expr)

/-- Embedding of `Decl<'ar>` from `sml-core/src/lib.rs`. -/
inductive Decl where
  | Datatype (d : Datatype)
  | Fun (tyvars : List Nat) (lambdas : List Lambda)
  | Val (r : Rule)
  | Exn (con : Constructor) (ty : Option SmlType)

end

/-- Projection `Expr.expr` (the `expr` field of the Rust struct). -/
def Expr.expr : Expr → ExprKind
  | .mk e _ _ => e

/-- Projection `Expr.ty`. -/
def Expr.ty : Expr → SmlType
  | .mk _ t _ => t

/-- Projection `Expr.span`. -/
def Expr.span : Expr → Span
  | .mk _ _ s => s

mutual

/-- Embedding of `Expr::non_expansive` from `sml-core/src/lib.rs`: `Con(C_REF, _)` is
expansive; `Con`, `Const`, `Lambda`, `Var`, `Primitive` are
non-expansive; `Record` and `List` are non-expansive when all their
fields/elements are; every other kind falls to the `_ => false` arm. -/
def Expr.non_expansive : Expr → Bool
  | .mk (.Con c _) _ _ => if c = C_REF then false else true
  | .mk (.Const _) _ _ => true
  | .mk (.Lambda _) _ _ => true
  | .mk (.Var _) _ _ => true
  | .mk (.Primitive _) _ _ => true
  | .mk (.Record rows) _ _ => Expr.rowsNonExpansive rows
  | .mk (.List exprs) _ _ => Expr.listNonExpansive exprs
  | .mk _ _ _ => false

/-- Rust `rows.iter().all(|r| r.data.non_expansive())` unfolded on `List`. -/
def Expr.rowsNonExpansive : List (Row Expr) → Bool
  | [] => true
  | r :: rs => r.data.non_expansive && Expr.rowsNonExpansive rs

/-- Rust `exprs.iter().all(|r| r.non_expansive())` unfolded on `List`. -/
def Expr.listNonExpansive : List Expr → Bool
  | [] => true
  | e :: es => e.non_expansive && Expr.listNonExpansive es

end

/-- Specification-side predicate, written after the spec's words in
section 4.1: "Non-expansive forms are: constants, variables, primitive
references, lambdas, constructor applications other than `ref`, records
whose fields are non-expansive, and list literals whose elements are
non-expansive."  It is compared with the source's `Expr.non_expansive`
in the C1 theorem. -/
inductive SpecNonExpansive : Expr → Prop where
  | const (c : Const) (ty : SmlType) (sp : Span) : SpecNonExpansive (.mk (.Const c) ty sp)
  | var (s : Symbol) (ty : SmlType) (sp : Span) : SpecNonExpansive (.mk (.Var s) ty sp)
  | primitive (s : Symbol) (ty : SmlType) (sp : Span) : SpecNonExpansive (.mk (.Primitive s) ty sp)
  | lambda (l : Lambda) (ty : SmlType) (sp : Span) : SpecNonExpansive (.mk (.Lambda l) ty sp)
  | con (c : Constructor) (tys : List SmlType) (ty : SmlType) (sp : Span) (h : c ≠ C_REF) :
      SpecNonExpansive (.mk (.Con c tys) ty sp)
  | record (rows : List (Row Expr)) (ty : SmlType) (sp : Span)
      (h : ∀ r ∈ rows, SpecNonExpansive r.data) : SpecNonExpansive (.mk (.Record rows) ty sp)
  | list (es : List Expr) (ty : SmlType) (sp : Span)
      (h : ∀ e ∈ es, SpecNonExpansive e) : SpecNonExpansive (.mk (.List es) ty sp)

/-- One-hole expression frames: each constructor records one position in
an `ExprKind` where an immediate `Expr` subterm sits, together with the
remaining siblings and the `ty`/`span` of the surrounding node.  Filling
the hole rebuilds the surrounding expression, so "`s` occurs as a subterm
of `e`" is "`fill C s = e` for some frame list `C`". -/
inductive Frame where
  | app1 (x : Expr) (ty : SmlType) (sp : Span)
  | app2 (f : Expr) (ty : SmlType) (sp : Span)
  | caseScrut (rules : List Rule) (ty : SmlType) (sp : Span)
  | caseRule (scrut : Expr) (pre : List Rule) (pat : Pat) (post : List Rule)
      (ty : SmlType) (sp : Span)
  | handleScrut (rules : List Rule) (ty : SmlType) (sp : Span)
  | handleRule (e : Expr) (pre : List Rule) (pat : Pat) (post : List Rule)
      (ty : SmlType) (sp : Span)
  | lambdaBody (arg : Symbol) (argTy : SmlType) (ty : SmlType) (sp : Span)
  | letBody (decls : List Decl) (ty : SmlType) (sp : Span)
  | letVal (pre : List Decl) (pat : Pat) (post : List Decl) (body : Expr)
      (ty : SmlType) (sp : Span)
  | letFun (pre : List Decl) (tyvars : List Nat) (lpre : List Lambda) (arg : Symbol)
      (argTy : SmlType) (lpost : List Lambda) (post : List Decl) (body : Expr)
      (ty : SmlType) (sp : Span)
  | listElem (pre : List Expr) (post : List Expr) (ty : SmlType) (sp : Span)
  | raiseArg (ty : SmlType) (sp : Span)
  | recordField (pre : List (Row Expr)) (label : Symbol) (rowSp : Span)
      (post : List (Row Expr)) (ty : SmlType) (sp : Span)
  | seqElem (pre : List Expr) (post : List Expr) (ty : SmlType) (sp : Span)

/-- Fill a single one-hole frame with an expression. -/
def Frame.fill1 (e : Expr) : Frame → Expr
  | .app1 x ty sp => .mk (.App e x) ty sp
  | .app2 f ty sp => .mk (.App f e) ty sp
  | .caseScrut rules ty sp => .mk (.Case e rules) ty sp
  | .caseRule scrut pre pat post ty sp =>
      .mk (.Case scrut (pre ++ Rule.mk pat e :: post)) ty sp
  | .handleScrut rules ty sp => .mk (.Handle e rules) ty sp
  | .handleRule x pre pat post ty sp =>
      .mk (.Handle x (pre ++ Rule.mk pat e :: post)) ty sp
  | .lambdaBody arg argTy ty sp => .mk (.Lambda (.mk arg argTy e)) ty sp
  | .letBody decls ty sp => .mk (.Let decls e) ty sp
  | .letVal pre pat post body ty sp =>
      .mk (.Let (pre ++ Decl.Val (Rule.mk pat e) :: post) body) ty sp
  | .letFun pre tyvars lpre arg argTy lpost post body ty sp =>
      .mk (.Let (pre ++ Decl.Fun tyvars (lpre ++ Lambda.mk arg argTy e :: lpost) :: post) body)
        ty sp
  | .listElem pre post ty sp => .mk (.List (pre ++ e :: post)) ty sp
  | .raiseArg ty sp => .mk (.Raise e) ty sp
  | .recordField pre label rowSp post ty sp =>
      .mk (.Record (pre ++ { label := label, data := e, span := rowSp } :: post)) ty sp
  | .seqElem pre post ty sp => .mk (.Seq (pre ++ e :: post)) ty sp

/-- Fill a list of frames, innermost frame first. -/
def fill : List Frame → Expr → Expr
  | [], e => e
  | f :: fs, e => fill fs (f.fill1 e)

/-- A frame is generalization-transparent when it is a record-field or
list-element position all of whose sibling fields/elements are
non-expansive; only through such frames does non-expansiveness of the
filled hole propagate outwards. -/
def Frame.good : Frame → Bool
  | .listElem pre post _ _ => Expr.listNonExpansive pre && Expr.listNonExpansive post
  | .recordField pre _ _ post _ _ => Expr.rowsNonExpansive pre && Expr.rowsNonExpansive post
  | _ => false

/-- All frames of a context are generalization-transparent. -/
def goodCtx : List Frame → Bool
  | [] => true
  | f :: fs => f.good && goodCtx fs

/-- A closed sample span for concrete test expressions. -/
def sp0 : Span := { file_id := 0, lo := 0, hi := 0 }

/-- A closed sample type (`unit`, say) for concrete test expressions. -/
def ty0 : SmlType := .Con { name := { id := 5 }, arity := 0, scope_depth := 0, id := 5 } []

/-- A closed sample lambda `fn x => x`. -/
def lam0 : Lambda := .mk { id := 0 } ty0 (.mk (.Var { id := 0 }) ty0 sp0)

/-- A closed sample lambda expression wrapping `lam0`. -/
def lamE : Expr := .mk (.Lambda lam0) ty0 sp0

/-- A closed sample expansive expression: the application `(fn x => x) (fn x => x)`. -/
def appE : Expr := .mk (.App lamE lamE) ty0 sp0

/-- A one-frame context placing the hole as the sole element of a list
literal: a generalization-transparent context. -/
def ctx0 : List Frame := [Frame.listElem [] [] ty0 sp0]

/-- A one-frame context placing the hole as the sole element of a `Seq`:
not generalization-transparent, since `Seq` is always expansive. -/
def ctxSeq : List Frame := [Frame.seqElem [] [] ty0 sp0]

namespace Driver

/-- Rust `str::starts_with`, rendered over the strings' character lists
(Lean's built-in `String.startsWith` is irreducible in the kernel). -/
def strStartsWith (s pre : String) : Bool :=
  pre.data.isPrefixOf s.data

/-- Embedding of `CompilerBuilder` from `sml-driver/src/config.rs`:
three optional settings; `#[derive(Default)]` gives all-`None`. -/
structure CompilerBuilder where
  measure : Option Bool
  verbosity : Option Nat
  phase : Option String
deriving DecidableEq, Repr

/-- Rust `CompilerBuilder::default()`: every field `None`. -/
def CompilerBuilder.default : CompilerBuilder :=
  { measure := none, verbosity := none, phase := none }

/-- Modelled from the spec: the `Compiler` struct (crate `sml-driver`,
module `compiler`, not shown in the sources), restricted to the fields
`CompilerBuilder::build` initialises from builder state or constants:
`src` (the empty string), `measure`, `verbosity`, `stop_phase`, `times`
(the empty vector).  The arena, elaboration-context and interner fields
are engine state irrelevant to the configuration claims. -/
structure Compiler where
  src : String
  measure : Bool
  verbosity : Nat
  stop_phase : String
  times : List Nat
deriving DecidableEq, Repr

/-- Embedding of `CompilerBuilder::build` from `sml-driver/src/config.rs`:
`unwrap_or(false)`, `unwrap_or(0)` and `unwrap_or_default()` give the
defaults for unset fields. -/
def CompilerBuilder.build (b : CompilerBuilder) : Compiler :=
  { src := ""
    measure := b.measure.getD false
    verbosity := b.verbosity.getD 0
    stop_phase := b.phase.getD ""
    times := [] }

/-- Embedding of the builder method `CompilerBuilder::verbosity` (renamed:
Lean cannot give a method the same name as the field it sets). -/
def CompilerBuilder.setVerbosity (b : CompilerBuilder) (val : Nat) : CompilerBuilder :=
  { b with verbosity := some val }

/-- Embedding of the builder method `CompilerBuilder::phase`. -/
def CompilerBuilder.setPhase (b : CompilerBuilder) (val : String) : CompilerBuilder :=
  { b with phase := some val }

/-- Embedding of the builder method `CompilerBuilder::measure`. -/
def CompilerBuilder.setMeasure (b : CompilerBuilder) (val : Bool) : CompilerBuilder :=
  { b with measure := some val }

/-- Embedding of `ArgParse` from `sml-driver/src/config.rs`. -/
structure ArgParse where
  builder : CompilerBuilder
  files : List String
deriving DecidableEq, Repr

/-- Modelled from the spec: the driver's three argument-failure kinds
(`UnknownFlag`, `MissingPhaseArgument`, `UnrecognizedPhase`); in the
source each is a distinct `panic!`/`expect` site inside
`ArgParse::parse` ("unrecognized compiler flag", "expected phase after
--phase", "unrecognized compiler phase") that aborts the process. -/
inductive ArgError where
  | UnknownFlag (flag : String)
  | MissingPhaseArgument
  | UnrecognizedPhase (phase : String)
deriving DecidableEq, Repr

mutual

/-- Embedding of the loop of `ArgParse::parse` from
`sml-driver/src/config.rs`.  The Rust code reverses `args.skip(1)` onto a
stack and pops from the front of the original order, i.e. it processes
the arguments after the program name front to back; this rendering
recurses over that list directly.  Rust's `match item.as_ref()` over
string literals is a sequence of equality tests, rendered as an
`if`-chain; the `--phase` arm's pop of the following argument is the
helper `parsePhaseArg` below. -/
def ArgParse.parseLoop :
    List String → CompilerBuilder → List String → Except ArgError ArgParse
  | [], builder, files => .ok { builder := builder, files := files }
  | item :: stack, builder, files =>
    if strStartsWith item "--" then
      if item = "--silent" then
        ArgParse.parseLoop stack (builder.setVerbosity 0) files
      else if item = "--v" then
        ArgParse.parseLoop stack (builder.setVerbosity 1) files
      else if item = "--vv" then
        ArgParse.parseLoop stack (builder.setVerbosity 2) files
      else if item = "--measure" then
        ArgParse.parseLoop stack (builder.setMeasure true) files
      else if item = "--phase" then
        ArgParse.parsePhaseArg stack builder files
      else .error (.UnknownFlag item)
    else
      ArgParse.parseLoop stack builder (files ++ [item])

/-- Embedding of the `--phase` arm of `ArgParse::parse`:
`stack.pop().expect("expected phase after --phase")` followed by the
`match` mapping `parse`/`elab`/`mono`/`flat` to the internal phase names
and panicking on anything else. -/
def ArgParse.parsePhaseArg :
    List String → CompilerBuilder → List String → Except ArgError ArgParse
  | [], _, _ => .error .MissingPhaseArgument
  | p :: rest, builder, files =>
    if p = "parse" then ArgParse.parseLoop rest (builder.setPhase "parse") files
    else if p = "elab" then ArgParse.parseLoop rest (builder.setPhase "elaborate") files
    else if p = "mono" then ArgParse.parseLoop rest (builder.setPhase "monomorphize") files
    else if p = "flat" then ArgParse.parseLoop rest (builder.setPhase "flatten") files
    else .error (.UnrecognizedPhase p)

end

/-- Embedding of `ArgParse::parse`: run the loop on the arguments after
the program name, with the default builder and no files. -/
def ArgParse.parse (args : List String) : Except ArgError ArgParse :=
  ArgParse.parseLoop args CompilerBuilder.default []

/-- The five flag spellings `ArgParse::parse` recognizes. -/
def recognizedFlag (s : String) : Bool :=
  s = "--silent" || s = "--v" || s = "--vv" || s = "--measure" || s = "--phase"

/-- A Rust `panic!` in a binary aborts the process and the standard
runtime exits with code 101; `ArgParse::parse` panics on all three
argument failures, so each terminates the process with this code. -/
def panicExitCode : Nat := 101

/-- Specification-side collector for the amended C6 claim: the arguments
that are collected as input files are exactly those that do not begin
with `--` and are not consumed as the argument of an immediately
preceding `--phase` flag, kept in command-line order with repeats. -/
def expectedFiles : List String → List String
  | [] => []
  | a :: rest =>
    if a = "--phase" then expectedFiles (rest.drop 1)
    else if strStartsWith a "--" then expectedFiles rest
    else a :: expectedFiles rest
termination_by args => args.length
decreasing_by
  · simp [List.length_drop]
    omega
  · simp
  · simp

end Driver

/-! ### Helper lemmas about `non_expansive` -/

/-- Distribute `listNonExpansive` over append. -/
theorem listNonExpansive_append (xs ys : List Expr) :
    Expr.listNonExpansive (xs ++ ys)
      = (Expr.listNonExpansive xs && Expr.listNonExpansive ys) := by
  induction xs with
  | nil => simp [Expr.listNonExpansive]
  | cons x xs ih => simp [Expr.listNonExpansive, ih, Bool.and_assoc]

/-- Distribute `rowsNonExpansive` over append. -/
theorem rowsNonExpansive_append (xs ys : List (Row Expr)) :
    Expr.rowsNonExpansive (xs ++ ys)
      = (Expr.rowsNonExpansive xs && Expr.rowsNonExpansive ys) := by
  induction xs with
  | nil => simp [Expr.rowsNonExpansive]
  | cons x xs ih => simp [Expr.rowsNonExpansive, ih, Bool.and_assoc]

/-- Filling a generalization-transparent frame with a non-expansive
expression yields a non-expansive expression. -/
theorem good_fill1 (f : Frame) (e : Expr) (hf : f.good = true)
    (he : e.non_expansive = true) : (f.fill1 e).non_expansive = true := by
  cases f with
  | listElem pre post ty sp =>
    simp only [Frame.good, Bool.and_eq_true] at hf
    show Expr.listNonExpansive (pre ++ e :: post) = true
    rw [listNonExpansive_append]
    simp [Expr.listNonExpansive, hf.1, hf.2, he]
  | recordField pre label rowSp post ty sp =>
    simp only [Frame.good, Bool.and_eq_true] at hf
    show Expr.rowsNonExpansive (pre ++ { label := label, data := e, span := rowSp } :: post)
      = true
    rw [rowsNonExpansive_append]
    simp [Expr.rowsNonExpansive, hf.1, hf.2, he]
  | app1 x ty sp => simp [Frame.good] at hf
  | app2 x ty sp => simp [Frame.good] at hf
  | caseScrut rules ty sp => simp [Frame.good] at hf
  | caseRule scrut pre pat post ty sp => simp [Frame.good] at hf
  | handleScrut rules ty sp => simp [Frame.good] at hf
  | handleRule x pre pat post ty sp => simp [Frame.good] at hf
  | lambdaBody arg argTy ty sp => simp [Frame.good] at hf
  | letBody decls ty sp => simp [Frame.good] at hf
  | letVal pre pat post body ty sp => simp [Frame.good] at hf
  | letFun pre tyvars lpre arg argTy lpost post body ty sp => simp [Frame.good] at hf
  | raiseArg ty sp => simp [Frame.good] at hf
  | seqElem pre post ty sp => simp [Frame.good] at hf

/-- Filling a generalization-transparent context with a non-expansive
expression yields a non-expansive expression. -/
theorem good_fill (C : List Frame) : ∀ e : Expr, goodCtx C = true →
    e.non_expansive = true → (fill C e).non_expansive = true := by
  induction C with
  | nil => intro e _ he; simpa [fill] using he
  | cons f fs ih =>
    intro e hC he
    simp only [goodCtx, Bool.and_eq_true] at hC
    rw [show fill (f :: fs) e = fill fs (f.fill1 e) from rfl]
    exact ih _ hC.2 (good_fill1 f e hC.1 he)

/-! ### Claim theorems for the Core IR -/

/-- C1: `Expr.non_expansive` returns `true` exactly for the spec's
non-expansive forms — constants, variables, primitive references,
lambdas, constructor applications other than `ref`, records all of whose
fields are non-expansive, and list literals all of whose elements are
non-expansive — and `false` for every other form (`App`, `Case`, `Let`,
`Handle`, `Raise`, `Seq`, and applications of `ref`), since
`SpecNonExpansive` has constructors for exactly the non-expansive
forms. -/
theorem non_expansive_iff_spec (e : Expr) :
    e.non_expansive = true ↔ SpecNonExpansive e := by
  refine Expr.non_expansive.induct
    (fun e => e.non_expansive = true ↔ SpecNonExpansive e)
    (fun es => Expr.listNonExpansive es = true ↔ ∀ x ∈ es, SpecNonExpansive x)
    (fun rows => Expr.rowsNonExpansive rows = true ↔ ∀ r ∈ rows, SpecNonExpansive r.data)
    ?_ ?_ ?_ ?_ ?_ ?_ ?_ ?_ ?_ ?_ ?_ ?_ ?_ e
  · intro tys ty span
    rw [show Expr.non_expansive (.mk (.Con C_REF tys) ty span) = false by
      simp [Expr.non_expansive]]
    simp only [Bool.false_eq_true, false_iff]
    intro h
    cases h with
    | con c tys ty sp h => exact h rfl
  · intro c tys ty span hne
    rw [show Expr.non_expansive (.mk (.Con c tys) ty span) = true by
      simp [Expr.non_expansive, hne]]
    simp only [true_iff]
    exact .con c tys ty span hne
  · intro c ty span
    simpa [Expr.non_expansive] using SpecNonExpansive.const c ty span
  · intro l ty span
    simpa [Expr.non_expansive] using SpecNonExpansive.lambda l ty span
  · intro s ty span
    simpa [Expr.non_expansive] using SpecNonExpansive.var s ty span
  · intro s ty span
    simpa [Expr.non_expansive] using SpecNonExpansive.primitive s ty span
  · intro rows ty span ih
    rw [show Expr.non_expansive (.mk (.Record rows) ty span)
        = Expr.rowsNonExpansive rows from rfl]
    rw [ih]
    constructor
    · exact fun h => .record rows ty span h
    · intro h
      cases h with
      | record rows ty sp h => exact h
  · intro exprs ty span ih
    rw [show Expr.non_expansive (.mk (.List exprs) ty span)
        = Expr.listNonExpansive exprs from rfl]
    rw [ih]
    constructor
    · exact fun h => .list exprs ty span h
    · intro h
      cases h with
      | list es ty sp h => exact h
  · intro expr ty span h1 h2 h3 h4 h5 h6 h7
    cases expr with
    | App a b =>
      rw [show Expr.non_expansive (.mk (.App a b) ty span) = false from rfl]
      simp only [Bool.false_eq_true, false_iff]
      intro h
      cases h
    | Case a b =>
      rw [show Expr.non_expansive (.mk (.Case a b) ty span) = false from rfl]
      simp only [Bool.false_eq_true, false_iff]
      intro h
      cases h
    | Handle a b =>
      rw [show Expr.non_expansive (.mk (.Handle a b) ty span) = false from rfl]
      simp only [Bool.false_eq_true, false_iff]
      intro h
      cases h
    | Let a b =>
      rw [show Expr.non_expansive (.mk (.Let a b) ty span) = false from rfl]
      simp only [Bool.false_eq_true, false_iff]
      intro h
      cases h
    | Raise a =>
      rw [show Expr.non_expansive (.mk (.Raise a) ty span) = false from rfl]
      simp only [Bool.false_eq_true, false_iff]
      intro h
      cases h
    | Seq a =>
      rw [show Expr.non_expansive (.mk (.Seq a) ty span) = false from rfl]
      simp only [Bool.false_eq_true, false_iff]
      intro h
      cases h
    | Con c tys => exact absurd rfl (h1 c tys)
    | Const c => exact absurd rfl (h2 c)
    | Lambda l => exact absurd rfl (h3 l)
    | Var s => exact absurd rfl (h4 s)
    | Primitive s => exact absurd rfl (h5 s)
    | Record rows => exact absurd rfl (h6 rows)
    | List es => exact absurd rfl (h7 es)
  · simp [Expr.listNonExpansive]
  · intro e es ih1 ih2
    simp [Expr.listNonExpansive, ih1, ih2]
  · simp [Expr.rowsNonExpansive]
  · intro r rs ih1 ih2
    simp [Expr.rowsNonExpansive, ih1, ih2]

/-- C2 (counterexample): the claim fails as stated.  The expression
`Seq [(fn x => x) (fn x => x)]` is expansive, its subterm
`(fn x => x) (fn x => x)` (at the one-hole `Seq`-element context
`ctxSeq`) is expansive, yet replacing that subterm with the lambda
`fn x => x` leaves the expression expansive, because a `Seq` node is
expansive whatever its elements are. -/
theorem fill_lambda_counterexample :
    fill ctxSeq appE = Expr.mk (.Seq [appE]) ty0 sp0 ∧
    (fill ctxSeq appE).non_expansive = false ∧
    appE.non_expansive = false ∧
    (fill ctxSeq (Expr.mk (.Lambda lam0) ty0 sp0)).non_expansive = false :=
  ⟨rfl, rfl, rfl, rfl⟩

/-- C2 (amended): for every expansive expression and every choice of one
of its expansive subterms, replacing that subterm with a lambda yields
an expression for which `non_expansive` returns `true`, provided the
one-hole context around the subterm consists solely of record-field and
list-element frames all of whose sibling fields/elements are
non-expansive; through other frames (such as the `Seq` frame of the
counterexample, or beside an expansive sibling) the replacement need not
restore non-expansiveness. -/
theorem fill_lambda_non_expansive (C : List Frame) (s : Expr) (l : Lambda)
    (ty : SmlType) (sp : Span) (hC : goodCtx C = true)
    (_he : (fill C s).non_expansive = false) (_hs : s.non_expansive = false) :
    (fill C (Expr.mk (.Lambda l) ty sp)).non_expansive = true :=
  good_fill C (Expr.mk (.Lambda l) ty sp) hC rfl

/-- Witness for the amended C2 theorem: the list literal
`[(fn x => x) (fn x => x)]` is expansive, and replacing its sole
(expansive) element with a lambda makes it non-expansive. -/
theorem fill_lambda_non_expansive_witness :
    (fill ctx0 (Expr.mk (.Lambda lam0) ty0 sp0)).non_expansive = true :=
  fill_lambda_non_expansive ctx0 appE lam0 ty0 sp0 rfl rfl rfl

/-- C7: every Core IR expression kind is exactly one of the thirteen
kinds `App`, `Case`, `Con`, `Const`, `Handle`, `Lambda`, `Let`, `List`,
`Primitive`, `Raise`, `Record`, `Seq`, `Var`; the `ExprKind` type has
these constructors and no others, and by the constructor signatures all
subterms are Core `Expr`/`Pat`/`Rule`/`Decl` nodes, never surface AST
nodes. -/
theorem exprKind_exhaustive (e : ExprKind) :
    (∃ e1 e2, e = .App e1 e2) ∨ (∃ s rs, e = .Case s rs) ∨ (∃ c tys, e = .Con c tys) ∨
    (∃ c, e = .Const c) ∨ (∃ x rs, e = .Handle x rs) ∨ (∃ l, e = .Lambda l) ∨
    (∃ ds b, e = .Let ds b) ∨ (∃ es, e = .List es) ∨ (∃ s, e = .Primitive s) ∨
    (∃ x, e = .Raise x) ∨ (∃ rows, e = .Record rows) ∨ (∃ es, e = .Seq es) ∨
    (∃ s, e = .Var s) := by
  cases e with
  | App e1 e2 => exact Or.inl ⟨e1, e2, rfl⟩
  | Case s rs => exact Or.inr (Or.inl ⟨s, rs, rfl⟩)
  | Con c tys => exact Or.inr (Or.inr (Or.inl ⟨c, tys, rfl⟩))
  | Const c => exact Or.inr (Or.inr (Or.inr (Or.inl ⟨c, rfl⟩)))
  | Handle x rs => exact Or.inr (Or.inr (Or.inr (Or.inr (Or.inl ⟨x, rs, rfl⟩))))
  | Lambda l => exact Or.inr (Or.inr (Or.inr (Or.inr (Or.inr (Or.inl ⟨l, rfl⟩)))))
  | Let ds b =>
    exact Or.inr (Or.inr (Or.inr (Or.inr (Or.inr (Or.inr (Or.inl ⟨ds, b, rfl⟩))))))
  | List es =>
    exact Or.inr (Or.inr (Or.inr (Or.inr (Or.inr (Or.inr (Or.inr (Or.inl ⟨es, rfl⟩)))))))
  | Primitive s =>
    exact Or.inr (Or.inr (Or.inr (Or.inr (Or.inr (Or.inr (Or.inr (Or.inr
      (Or.inl ⟨s, rfl⟩))))))))
  | Raise x =>
    exact Or.inr (Or.inr (Or.inr (Or.inr (Or.inr (Or.inr (Or.inr (Or.inr (Or.inr
      (Or.inl ⟨x, rfl⟩)))))))))
  | Record rows =>
    exact Or.inr (Or.inr (Or.inr (Or.inr (Or.inr (Or.inr (Or.inr (Or.inr (Or.inr
      (Or.inr (Or.inl ⟨rows, rfl⟩))))))))))
  | Seq es =>
    exact Or.inr (Or.inr (Or.inr (Or.inr (Or.inr (Or.inr (Or.inr (Or.inr (Or.inr
      (Or.inr (Or.inr (Or.inl ⟨es, rfl⟩)))))))))))
  | Var s =>
    exact Or.inr (Or.inr (Or.inr (Or.inr (Or.inr (Or.inr (Or.inr (Or.inr (Or.inr
      (Or.inr (Or.inr (Or.inr ⟨s, rfl⟩)))))))))))

/-- C8: `Row.fmap` leaves `label` and `span` unchanged and maps `f` over
`data`; since `Row` has exactly the three fields `label`, `data`,
`span`, no field other than `data` is affected. -/
theorem row_fmap_frame {T S : Type} (r : Row T) (f : T → S) :
    (r.fmap f).label = r.label ∧ (r.fmap f).data = f r.data ∧
    (r.fmap f).span = r.span :=
  ⟨rfl, rfl, rfl⟩

/-- C9: `Row.flatten` returns `Err e` exactly when the row's data is
`Err e`, and on `Ok` data returns `Ok` of the row with identical `label`
and `span` and the unwrapped data. -/
theorem row_flatten_spec {T E : Type} (r : Row (Except E T)) :
    (∀ e : E, r.flatten = .error e ↔ r.data = .error e) ∧
    (∀ t : T, r.data = .ok t →
      r.flatten = .ok { label := r.label, data := t, span := r.span }) := by
  obtain ⟨l, d, s⟩ := r
  cases d with
  | error e2 =>
    constructor
    · intro e
      simp [Row.flatten]
    · intro t ht
      simp at ht
  | ok d =>
    constructor
    · intro e
      simp [Row.flatten]
    · intro t ht
      simp only [] at ht
      cases ht
      simp [Row.flatten]

/-- Witness for C9 at a concrete row with `Ok` data (`flatten`
rebuilds the row) and the error direction at a concrete `Err` row. -/
theorem row_flatten_spec_witness :
    ({ label := { id := 3 }, data := Except.ok 5, span := sp0 } : Row (Except String Nat)).flatten
      = .ok { label := { id := 3 }, data := 5, span := sp0 } ∧
    (({ label := { id := 3 }, data := Except.error "e", span := sp0 } :
        Row (Except String Nat)).flatten = .error "e" ↔
      ({ label := { id := 3 }, data := Except.error "e", span := sp0 } :
        Row (Except String Nat)).data = .error "e") :=
  ⟨(row_flatten_spec _).2 5 rfl, (row_flatten_spec _).1 "e"⟩

/-! ### Helper lemmas about the argument parser -/

namespace Driver

/-- The flag spellings all start with a double dash. -/
theorem sw_silent : strStartsWith "--silent" "--" = true := by decide

/-- See `sw_silent`. -/
theorem sw_v : strStartsWith "--v" "--" = true := by decide

/-- See `sw_silent`. -/
theorem sw_vv : strStartsWith "--vv" "--" = true := by decide

/-- See `sw_silent`. -/
theorem sw_measure : strStartsWith "--measure" "--" = true := by decide

/-- See `sw_silent`. -/
theorem sw_phase : strStartsWith "--phase" "--" = true := by decide

/-- Step equation: the empty argument list yields the accumulated state. -/
theorem parseLoop_nil (b : CompilerBuilder) (files : List String) :
    ArgParse.parseLoop [] b files = .ok { builder := b, files := files } := by
  rw [ArgParse.parseLoop]

/-- Step equation for the `--silent` flag. -/
theorem parseLoop_silent (b : CompilerBuilder) (files rest : List String) :
    ArgParse.parseLoop ("--silent" :: rest) b files
      = ArgParse.parseLoop rest (b.setVerbosity 0) files := by
  rw [ArgParse.parseLoop]
  simp [sw_silent]

/-- Step equation for the `--v` flag. -/
theorem parseLoop_v (b : CompilerBuilder) (files rest : List String) :
    ArgParse.parseLoop ("--v" :: rest) b files
      = ArgParse.parseLoop rest (b.setVerbosity 1) files := by
  rw [ArgParse.parseLoop]
  simp [sw_v]

/-- Step equation for the `--vv` flag. -/
theorem parseLoop_vv (b : CompilerBuilder) (files rest : List String) :
    ArgParse.parseLoop ("--vv" :: rest) b files
      = ArgParse.parseLoop rest (b.setVerbosity 2) files := by
  rw [ArgParse.parseLoop]
  simp [sw_vv]

/-- Step equation for the `--measure` flag. -/
theorem parseLoop_measure (b : CompilerBuilder) (files rest : List String) :
    ArgParse.parseLoop ("--measure" :: rest) b files
      = ArgParse.parseLoop rest (b.setMeasure true) files := by
  rw [ArgParse.parseLoop]
  simp [sw_measure]

/-- Step equation for the `--phase` flag: pop the next argument. -/
theorem parseLoop_phase (b : CompilerBuilder) (files rest : List String) :
    ArgParse.parseLoop ("--phase" :: rest) b files
      = ArgParse.parsePhaseArg rest b files := by
  rw [ArgParse.parseLoop]
  simp [sw_phase]

/-- Step equation for an unrecognized `--` flag. -/
theorem parseLoop_unknown (item : String) (stack : List String) (b : CompilerBuilder)
    (files : List String) (h0 : strStartsWith item "--" = true)
    (h1 : item ≠ "--silent") (h2 : item ≠ "--v") (h3 : item ≠ "--vv")
    (h4 : item ≠ "--measure") (h5 : item ≠ "--phase") :
    ArgParse.parseLoop (item :: stack) b files = .error (.UnknownFlag item) := by
  rw [ArgParse.parseLoop]
  simp [h0, h1, h2, h3, h4, h5]

/-- Step equation for a positional (file) argument. -/
theorem parseLoop_file (item : String) (stack : List String) (b : CompilerBuilder)
    (files : List String) (h0 : strStartsWith item "--" = false) :
    ArgParse.parseLoop (item :: stack) b files
      = ArgParse.parseLoop stack b (files ++ [item]) := by
  rw [ArgParse.parseLoop]
  simp [h0]

/-- Step equation: `--phase` with no following argument fails. -/
theorem parsePhaseArg_nil (b : CompilerBuilder) (files : List String) :
    ArgParse.parsePhaseArg [] b files = .error .MissingPhaseArgument := by
  rw [ArgParse.parsePhaseArg]

/-- Step equation for the phase name `parse`. -/
theorem parsePhaseArg_parse (b : CompilerBuilder) (files rest : List String) :
    ArgParse.parsePhaseArg ("parse" :: rest) b files
      = ArgParse.parseLoop rest (b.setPhase "parse") files := by
  rw [ArgParse.parsePhaseArg]
  simp

/-- Step equation for the phase name `elab`. -/
theorem parsePhaseArg_elaborate (b : CompilerBuilder) (files rest : List String) :
    ArgParse.parsePhaseArg ("elab" :: rest) b files
      = ArgParse.parseLoop rest (b.setPhase "elaborate") files := by
  rw [ArgParse.parsePhaseArg]
  simp

/-- Step equation for the phase name `mono`. -/
theorem parsePhaseArg_mono (b : CompilerBuilder) (files rest : List String) :
    ArgParse.parsePhaseArg ("mono" :: rest) b files
      = ArgParse.parseLoop rest (b.setPhase "monomorphize") files := by
  rw [ArgParse.parsePhaseArg]
  simp

/-- Step equation for the phase name `flat`. -/
theorem parsePhaseArg_flat (b : CompilerBuilder) (files rest : List String) :
    ArgParse.parsePhaseArg ("flat" :: rest) b files
      = ArgParse.parseLoop rest (b.setPhase "flatten") files := by
  rw [ArgParse.parsePhaseArg]
  simp

/-- Step equation for an unrecognized phase name. -/
theorem parsePhaseArg_other (p : String) (b : CompilerBuilder) (files rest : List String)
    (h1 : p ≠ "parse") (h2 : p ≠ "elab") (h3 : p ≠ "mono") (h4 : p ≠ "flat") :
    ArgParse.parsePhaseArg (p :: rest) b files = .error (.UnrecognizedPhase p) := by
  rw [ArgParse.parsePhaseArg]
  simp [h1, h2, h3, h4]

/-- `expectedFiles` skips a recognized non-`--phase` flag. -/
theorem expectedFiles_flag (a : String) (rest : List String)
    (hpre : strStartsWith a "--" = true) (hph : a ≠ "--phase") :
    expectedFiles (a :: rest) = expectedFiles rest := by
  rw [expectedFiles]
  simp [hph, hpre]

/-- `expectedFiles` skips `--phase` together with its argument. -/
theorem expectedFiles_phase_cons (p : String) (rest2 : List String) :
    expectedFiles ("--phase" :: p :: rest2) = expectedFiles rest2 := by
  rw [expectedFiles]
  simp

/-- `expectedFiles` collects a positional argument. -/
theorem expectedFiles_file (a : String) (rest : List String)
    (h : strStartsWith a "--" = false) :
    expectedFiles (a :: rest) = a :: expectedFiles rest := by
  have hph : a ≠ "--phase" := by
    intro he
    rw [he] at h
    exact absurd h (by decide)
  rw [expectedFiles]
  simp [hph, h]

/-- Any argument list containing an unrecognized `--` flag makes
`parseLoop` abort with some argument error, whatever state it starts
from (by strong induction on the length of the argument list). -/
theorem parseLoop_bad_flag : ∀ (n : Nat) (args : List String), args.length ≤ n →
    ∀ (b : CompilerBuilder) (files : List String) (flag : String),
      flag ∈ args → strStartsWith flag "--" = true → recognizedFlag flag = false →
      ∃ err, ArgParse.parseLoop args b files = .error err := by
  intro n
  induction n with
  | zero =>
    intro args hlen b files flag hmem _ _
    cases args with
    | nil => simp at hmem
    | cons a rest => simp at hlen
  | succ n ih =>
    intro args hlen b files flag hmem hpre hrec
    cases args with
    | nil => simp at hmem
    | cons item rest =>
      have hlen' : rest.length ≤ n := by
        simp only [List.length_cons] at hlen
        omega
      by_cases h1 : item = "--silent"
      · subst h1
        have hmem' : flag ∈ rest := by
          rcases List.mem_cons.mp hmem with rfl | h
          · exact absurd hrec (by decide)
          · exact h
        rw [parseLoop_silent]
        exact ih rest hlen' _ files flag hmem' hpre hrec
      by_cases h2 : item = "--v"
      · subst h2
        have hmem' : flag ∈ rest := by
          rcases List.mem_cons.mp hmem with rfl | h
          · exact absurd hrec (by decide)
          · exact h
        rw [parseLoop_v]
        exact ih rest hlen' _ files flag hmem' hpre hrec
      by_cases h3 : item = "--vv"
      · subst h3
        have hmem' : flag ∈ rest := by
          rcases List.mem_cons.mp hmem with rfl | h
          · exact absurd hrec (by decide)
          · exact h
        rw [parseLoop_vv]
        exact ih rest hlen' _ files flag hmem' hpre hrec
      by_cases h4 : item = "--measure"
      · subst h4
        have hmem' : flag ∈ rest := by
          rcases List.mem_cons.mp hmem with rfl | h
          · exact absurd hrec (by decide)
          · exact h
        rw [parseLoop_measure]
        exact ih rest hlen' _ files flag hmem' hpre hrec
      by_cases h5 : item = "--phase"
      · subst h5
        have hmem' : flag ∈ rest := by
          rcases List.mem_cons.mp hmem with rfl | h
          · exact absurd hrec (by decide)
          · exact h
        rw [parseLoop_phase]
        cases rest with
        | nil => simp at hmem'
        | cons p rest2 =>
          have hlen2 : rest2.length ≤ n := by
            simp only [List.length_cons] at hlen
            omega
          by_cases hp1 : p = "parse"
          · subst hp1
            have hmem2 : flag ∈ rest2 := by
              rcases List.mem_cons.mp hmem' with rfl | h
              · exact absurd hpre (by decide)
              · exact h
            rw [parsePhaseArg_parse]
            exact ih rest2 hlen2 _ files flag hmem2 hpre hrec
          by_cases hp2 : p = "elab"
          · subst hp2
            have hmem2 : flag ∈ rest2 := by
              rcases List.mem_cons.mp hmem' with rfl | h
              · exact absurd hpre (by decide)
              · exact h
            rw [parsePhaseArg_elaborate]
            exact ih rest2 hlen2 _ files flag hmem2 hpre hrec
          by_cases hp3 : p = "mono"
          · subst hp3
            have hmem2 : flag ∈ rest2 := by
              rcases List.mem_cons.mp hmem' with rfl | h
              · exact absurd hpre (by decide)
              · exact h
            rw [parsePhaseArg_mono]
            exact ih rest2 hlen2 _ files flag hmem2 hpre hrec
          by_cases hp4 : p = "flat"
          · subst hp4
            have hmem2 : flag ∈ rest2 := by
              rcases List.mem_cons.mp hmem' with rfl | h
              · exact absurd hpre (by decide)
              · exact h
            rw [parsePhaseArg_flat]
            exact ih rest2 hlen2 _ files flag hmem2 hpre hrec
          exact ⟨_, parsePhaseArg_other p b files rest2 hp1 hp2 hp3 hp4⟩
      by_cases h0 : strStartsWith item "--" = true
      · exact ⟨_, parseLoop_unknown item rest b files h0 h1 h2 h3 h4 h5⟩
      have h0' : strStartsWith item "--" = false := by
        cases hsw : strStartsWith item "--" with
        | false => rfl
        | true => exact absurd hsw h0
      have hmem' : flag ∈ rest := by
        rcases List.mem_cons.mp hmem with rfl | h
        · exact absurd hpre h0
        · exact h
      rw [parseLoop_file item rest b files h0']
      exact ih rest hlen' b (files ++ [item]) flag hmem' hpre hrec

/-- When `parseLoop` succeeds, the collected files are the starting
accumulator followed by `expectedFiles` of the remaining arguments (by
strong induction on the length of the argument list). -/
theorem parseLoop_files : ∀ (n : Nat) (args : List String), args.length ≤ n →
    ∀ (b : CompilerBuilder) (files : List String) (r : ArgParse),
      ArgParse.parseLoop args b files = .ok r →
      r.files = files ++ expectedFiles args := by
  intro n
  induction n with
  | zero =>
    intro args hlen b files r h
    cases args with
    | nil =>
      rw [parseLoop_nil] at h
      cases h
      simp [expectedFiles]
    | cons a rest => simp at hlen
  | succ n ih =>
    intro args hlen b files r h
    cases args with
    | nil =>
      rw [parseLoop_nil] at h
      cases h
      simp [expectedFiles]
    | cons item rest =>
      have hlen' : rest.length ≤ n := by
        simp only [List.length_cons] at hlen
        omega
      by_cases h1 : item = "--silent"
      · subst h1
        rw [parseLoop_silent] at h
        rw [ih rest hlen' _ files r h, expectedFiles_flag _ _ sw_silent (by decide)]
      by_cases h2 : item = "--v"
      · subst h2
        rw [parseLoop_v] at h
        rw [ih rest hlen' _ files r h, expectedFiles_flag _ _ sw_v (by decide)]
      by_cases h3 : item = "--vv"
      · subst h3
        rw [parseLoop_vv] at h
        rw [ih rest hlen' _ files r h, expectedFiles_flag _ _ sw_vv (by decide)]
      by_cases h4 : item = "--measure"
      · subst h4
        rw [parseLoop_measure] at h
        rw [ih rest hlen' _ files r h, expectedFiles_flag _ _ sw_measure (by decide)]
      by_cases h5 : item = "--phase"
      · subst h5
        rw [parseLoop_phase] at h
        cases rest with
        | nil =>
          rw [parsePhaseArg_nil] at h
          simp at h
        | cons p rest2 =>
          have hlen2 : rest2.length ≤ n := by
            simp only [List.length_cons] at hlen
            omega
          by_cases hp1 : p = "parse"
          · subst hp1
            rw [parsePhaseArg_parse] at h
            rw [ih rest2 hlen2 _ files r h, expectedFiles_phase_cons]
          by_cases hp2 : p = "elab"
          · subst hp2
            rw [parsePhaseArg_elaborate] at h
            rw [ih rest2 hlen2 _ files r h, expectedFiles_phase_cons]
          by_cases hp3 : p = "mono"
          · subst hp3
            rw [parsePhaseArg_mono] at h
            rw [ih rest2 hlen2 _ files r h, expectedFiles_phase_cons]
          by_cases hp4 : p = "flat"
          · subst hp4
            rw [parsePhaseArg_flat] at h
            rw [ih rest2 hlen2 _ files r h, expectedFiles_phase_cons]
          rw [parsePhaseArg_other p b files rest2 hp1 hp2 hp3 hp4] at h
          simp at h
      by_cases h0 : strStartsWith item "--" = true
      · rw [parseLoop_unknown item rest b files h0 h1 h2 h3 h4 h5] at h
        simp at h
      have h0' : strStartsWith item "--" = false := by
        cases hsw : strStartsWith item "--" with
        | false => rfl
        | true => exact absurd hsw h0
      rw [parseLoop_file item rest b files h0'] at h
      rw [ih rest hlen' b (files ++ [item]) r h, expectedFiles_file _ _ h0']
      simp

/-! ### Claim theorems for the driver -/

/-- C3 (counterexample): the claim fails as stated.  At the argument
list `["--phase", "--bogus"]`, which contains the unrecognized flag
`--bogus` (it starts with `--` and is none of the five recognized
flags), the parser reports `UnrecognizedPhase`, not `UnknownFlag`,
because `--phase` consumes the following token as a phase name; and the
abort is a Rust panic, whose process exit code is 101, not 2. -/
theorem unknown_flag_counterexample :
    strStartsWith "--bogus" "--" = true ∧
    recognizedFlag "--bogus" = false ∧
    ArgParse.parse ["--phase", "--bogus"] = .error (.UnrecognizedPhase "--bogus") ∧
    ArgError.UnrecognizedPhase "--bogus" ≠ ArgError.UnknownFlag "--bogus" ∧
    panicExitCode ≠ 2 := by
  refine ⟨by decide, by decide, ?_, by decide, by decide⟩
  have hp : ArgParse.parse ["--phase", "--bogus"]
      = ArgParse.parseLoop ["--phase", "--bogus"] CompilerBuilder.default [] := rfl
  rw [hp, parseLoop_phase]
  exact parsePhaseArg_other "--bogus" _ _ _ (by decide) (by decide) (by decide) (by decide)

/-- C3 (amended): for every argument list containing a flag that starts
with `--` and is not one of the recognized flags (`--silent`, `--v`,
`--vv`, `--measure`, `--phase`), argument parsing aborts with one of the
three panic failures before any compilation begins (no `ArgParse` value
is produced, so no `Compiler` is ever built) — reported as `UnknownFlag`
when the flag is reached in flag position, or as an earlier failure such
as `UnrecognizedPhase` when `--phase` consumes it — and the process
exits with the Rust panic code 101, not 2. -/
theorem bad_flag_aborts (args : List String) (flag : String)
    (hmem : flag ∈ args) (hpre : strStartsWith flag "--" = true)
    (hrec : recognizedFlag flag = false) :
    (∃ err, ArgParse.parse args = .error err) ∧ panicExitCode = 101 := by
  refine ⟨?_, rfl⟩
  have hp : ArgParse.parse args = ArgParse.parseLoop args CompilerBuilder.default [] := rfl
  rw [hp]
  exact parseLoop_bad_flag args.length args le_rfl CompilerBuilder.default [] flag
    hmem hpre hrec

/-- Witness for the amended C3 theorem at the argument list
`["--bogus"]`. -/
theorem bad_flag_aborts_witness :
    (∃ err, ArgParse.parse ["--bogus"] = .error err) ∧ panicExitCode = 101 :=
  bad_flag_aborts ["--bogus"] "--bogus" (by simp) (by decide) (by decide)

/-- C4: `--phase` accepts exactly the phase names `parse`, `elab`,
`mono`, `flat`, storing the corresponding stop phase in the builder (and
`build` passes it to the compiler's `stop_phase`); any other phase name
is an `UnrecognizedPhase` failure and a trailing `--phase` with no
following argument is a `MissingPhaseArgument` failure, each aborting
argument parsing (no `ArgParse` value is produced, so compilation never
begins). -/
theorem phase_flag :
    (∀ (b : CompilerBuilder) (files rest : List String),
      (ArgParse.parseLoop ("--phase" :: "parse" :: rest) b files
        = ArgParse.parseLoop rest (b.setPhase "parse") files) ∧
      (ArgParse.parseLoop ("--phase" :: "elab" :: rest) b files
        = ArgParse.parseLoop rest (b.setPhase "elaborate") files) ∧
      (ArgParse.parseLoop ("--phase" :: "mono" :: rest) b files
        = ArgParse.parseLoop rest (b.setPhase "monomorphize") files) ∧
      (ArgParse.parseLoop ("--phase" :: "flat" :: rest) b files
        = ArgParse.parseLoop rest (b.setPhase "flatten") files) ∧
      ArgParse.parseLoop ["--phase"] b files = .error .MissingPhaseArgument) ∧
    (∀ (b : CompilerBuilder) (s : String), ((b.setPhase s).build).stop_phase = s) ∧
    (∀ (p : String), p ≠ "parse" → p ≠ "elab" → p ≠ "mono" → p ≠ "flat" →
      ∀ (b : CompilerBuilder) (files rest : List String),
        ArgParse.parseLoop ("--phase" :: p :: rest) b files
          = .error (.UnrecognizedPhase p)) := by
  refine ⟨fun b files rest => ⟨?_, ?_, ?_, ?_, ?_⟩, fun b s => rfl,
    fun p h1 h2 h3 h4 b files rest => ?_⟩
  · rw [parseLoop_phase, parsePhaseArg_parse]
  · rw [parseLoop_phase, parsePhaseArg_elaborate]
  · rw [parseLoop_phase, parsePhaseArg_mono]
  · rw [parseLoop_phase, parsePhaseArg_flat]
  · rw [parseLoop_phase, parsePhaseArg_nil]
  · rw [parseLoop_phase, parsePhaseArg_other p b files rest h1 h2 h3 h4]

/-- Witness for C4 at the unrecognized phase name `bogus`. -/
theorem phase_flag_witness :
    ArgParse.parseLoop ["--phase", "bogus"] CompilerBuilder.default []
      = .error (.UnrecognizedPhase "bogus") :=
  phase_flag.2.2 "bogus" (by decide) (by decide) (by decide) (by decide)
    CompilerBuilder.default [] []

/-- C5: parsing the flag `--silent` sets the builder's verbosity to 0,
`--v` to 1 and `--vv` to 2, and `build` passes that value through to the
compiler's verbosity. -/
theorem verbosity_flags (b : CompilerBuilder) (files rest : List String) :
    (ArgParse.parseLoop ("--silent" :: rest) b files
      = ArgParse.parseLoop rest (b.setVerbosity 0) files) ∧
    (ArgParse.parseLoop ("--v" :: rest) b files
      = ArgParse.parseLoop rest (b.setVerbosity 1) files) ∧
    (ArgParse.parseLoop ("--vv" :: rest) b files
      = ArgParse.parseLoop rest (b.setVerbosity 2) files) ∧
    (b.setVerbosity 0).build.verbosity = 0 ∧
    (b.setVerbosity 1).build.verbosity = 1 ∧
    (b.setVerbosity 2).build.verbosity = 2 :=
  ⟨parseLoop_silent b files rest, parseLoop_v b files rest, parseLoop_vv b files rest,
    rfl, rfl, rfl⟩

/-- C6 (counterexample): the claim fails as stated.  In the argument
list `["--phase", "parse"]` the argument `parse` does not begin with
`--`, yet it is not collected as an input file: it is consumed as the
phase name of the preceding `--phase` flag, and the parse succeeds with
an empty file list. -/
theorem phase_arg_not_collected :
    ArgParse.parse ["--phase", "parse"]
      = .ok { builder := { measure := none, verbosity := none, phase := some "parse" },
              files := [] } ∧
    strStartsWith "parse" "--" = false := by
  constructor
  · have hp : ArgParse.parse ["--phase", "parse"]
        = ArgParse.parseLoop ["--phase", "parse"] CompilerBuilder.default [] := rfl
    rw [hp, parseLoop_phase, parsePhaseArg_parse, parseLoop_nil]
    rfl
  · decide

/-- C6 (amended): whenever argument parsing succeeds, the collected
input files are exactly the arguments that neither begin with `--` nor
are consumed as the argument of an immediately preceding `--phase` flag
(`expectedFiles` collects exactly those), retained in command-line order
with repeats kept. -/
theorem files_collected (args : List String) (r : ArgParse)
    (h : ArgParse.parse args = .ok r) : r.files = expectedFiles args := by
  have h' : ArgParse.parseLoop args CompilerBuilder.default [] = .ok r := h
  simpa using parseLoop_files args.length args le_rfl CompilerBuilder.default [] r h'

/-- Witness for the amended C6 theorem at
`["a.sml", "--v", "b.sml", "a.sml"]`: the repeated file is kept, in
order, and the flag is skipped. -/
theorem files_collected_witness :
    ({ builder := { measure := none, verbosity := some 1, phase := none },
       files := ["a.sml", "b.sml", "a.sml"] } : ArgParse).files
      = expectedFiles ["a.sml", "--v", "b.sml", "a.sml"] :=
  files_collected ["a.sml", "--v", "b.sml", "a.sml"] _ (by
    have hp : ArgParse.parse ["a.sml", "--v", "b.sml", "a.sml"]
        = ArgParse.parseLoop ["a.sml", "--v", "b.sml", "a.sml"]
            CompilerBuilder.default [] := rfl
    rw [hp, parseLoop_file _ _ _ _ (by decide), parseLoop_v,
      parseLoop_file _ _ _ _ (by decide), parseLoop_file _ _ _ _ (by decide),
      parseLoop_nil]
    rfl)

/-- C10: building from a `CompilerBuilder` on which a setter was not
called yields the defaults: `measure = false`, `verbosity = 0` (the same
value `--silent` sets), and the empty stop phase (run all phases). -/
theorem builder_build_defaults (b : CompilerBuilder) :
    (b.measure = none → b.build.measure = false) ∧
    (b.verbosity = none → b.build.verbosity = 0) ∧
    (b.phase = none → b.build.stop_phase = "") := by
  refine ⟨fun h => ?_, fun h => ?_, fun h => ?_⟩ <;>
    simp [CompilerBuilder.build, h]

/-- Witness for C10 at the all-default builder. -/
theorem builder_build_defaults_witness :
    CompilerBuilder.default.build.measure = false ∧
    CompilerBuilder.default.build.verbosity = 0 ∧
    CompilerBuilder.default.build.stop_phase = "" :=
  ⟨(builder_build_defaults CompilerBuilder.default).1 rfl,
    (builder_build_defaults CompilerBuilder.default).2.1 rfl,
    (builder_build_defaults CompilerBuilder.default).2.2 rfl⟩

end Driver

end SML
